import Mathlib

/-!
Formal model of `copylan.py` (Prisma SD-WAN ION configuration copy script).

The script copies static routes and VLAN/subinterface definitions from a
source element (device) to a destination element via a controller API.
We shallowly embed the data model and the reconciliation logic:

* Python dicts with string keys are association lists in insertion order
  with unique keys (`dget` is `d.get(k)`, `dinsert` is `d[k] = v`).
* Controller listing responses are a success flag plus an item list.
* The per-record loops (`go`, lines 191-266 and 293-333 of the source)
  become total Lean functions that return the list of observable events
  (warnings printed and write calls issued); the outcome of each write
  call is supplied by an oracle `server : WriteCall → Bool` standing for
  the controller's `cgx_status` answer.
-/

set_option autoImplicit false

namespace Copylan

/-- Python dict lookup `d.get(k)`: first entry with the given key. -/
def dget {β : Type} (d : List (String × β)) (k : String) : Option β :=
  match d with
  | [] => none
  | p :: t => if p.1 == k then some p.2 else dget t k

/-- Python dict assignment `d[k] = v`: replace the entry with key `k` in
place when present, otherwise append at the end.  On the unique-key lists
actually built by the model this is exactly CPython dict-update semantics
(insertion order preserved, update keeps the position). -/
def dinsert {β : Type} (d : List (String × β)) (k : String) (v : β) :
    List (String × β) :=
  match d with
  | [] => [(k, v)]
  | p :: t => if p.1 == k then (k, v) :: t else p :: dinsert t k v

/-- Truthiness of an optional string value, as used by `if site_id:` and
`if source_vrf_context_id:` in the source: `None` and `""` are falsy. -/
def truthyOpt (o : Option String) : Bool :=
  match o with
  | none => false
  | some s => !(s == "")

/-- Line 45: attributes always removed from a payload before POST/PUT. -/
def BASE_DELETE_ATTRS : List String :=
  ["_created_on_utc", "_updated_on_utc", "_content_length", "_status_code",
   "_request_id", "_debug", "_info", "_warning", "_error"]

/-- A loosely-typed JSON record viewed as a partial map from field name to
value (the generic shape `payload.pop(attr, None)` operates on). -/
def JsonRec : Type := String → Option String

/-- One `payload.pop(attr, None)` step on a generic record. -/
def popAttr (r : JsonRec) (attr : String) : JsonRec :=
  fun k => if k == attr then none else r k

/-- Pop every attribute of a list from a generic record. -/
def popAll (l : List String) (r : JsonRec) : JsonRec :=
  l.foldl popAttr r

/-- Lines 194-196 / 297-299: the record sanitizer on a generic record,
`for attr in BASE_DELETE_ATTRS: payload.pop(attr, None)`. -/
def sanitize (r : JsonRec) : JsonRec :=
  popAll BASE_DELETE_ATTRS r

/-- One `payload.pop(attr, None)` step on the leftover-attribute part of a
structured record (an association list of the fields not modeled as
structure fields). -/
def popMeta (m : List (String × String)) (attr : String) :
    List (String × String) :=
  m.filter (fun kv => !(kv.1 == attr))

/-- Pop every attribute of a list from the leftover-attribute map. -/
def popMetaAll (l : List String) (m : List (String × String)) :
    List (String × String) :=
  l.foldl popMeta m

/-- An element (device) record as returned by `get.elements()`:
the fields read at lines 59-62. `site_id` may be null in the JSON. -/
structure ElemRec where
  id : String
  name : String
  site_id : Option String
  model_name : String
deriving DecidableEq, Repr

/-- A VRF context record as returned by `get.vrfcontexts()` (lines 80-81). -/
structure VrfRec where
  id : String
  name : String
deriving DecidableEq, Repr

/-- An interface record as returned by `get.interfaces(...)`: the fields
the script reads (`id`, `name`, `type`, `_etag`), plus `meta` for every
other attribute of the JSON object (carried along verbatim). -/
structure IntfRec where
  id : String
  name : String
  type : String
  etag : Option String
  meta : List (String × String)
deriving DecidableEq, Repr

/-- An interface write payload: a deep copy of an `IntfRec` whose `id`
may have been popped (create path) or overwritten (update path). -/
structure IntfPayload where
  id : Option String
  name : String
  type : String
  etag : Option String
  meta : List (String × String)
deriving DecidableEq, Repr

/-- A nexthop of a static route: an optional device-scoped interface
reference plus an optional literal next-hop IP (copied verbatim,
line 229). -/
structure Nexthop where
  nexthop_interface_id : Option String
  nexthop_ip : Option String
deriving DecidableEq, Repr

/-- A static route record as returned by `get.staticroutes(...)`: the
fields the script reads, plus `meta` for every other attribute. -/
structure RouteRec where
  id : String
  name : String
  dest_pfx : String
  vrf_context_id : Option String
  etag : Option String
  nexthops : List Nexthop
  meta : List (String × String)
deriving DecidableEq, Repr

/-- A static-route write payload: a deep copy of a `RouteRec` whose `id`
and `_etag` may have been popped or overwritten. `dest_pfx` models the
record's `destination_prefix` field (the natural key). -/
structure RoutePayload where
  id : Option String
  name : String
  dest_pfx : String
  vrf_context_id : Option String
  etag : Option String
  nexthops : List Nexthop
  meta : List (String × String)
deriving DecidableEq, Repr

/-- A controller listing response: `cgx_status` plus
`cgx_content.get("items", [])`. -/
structure Listing (α : Type) where
  cgx_status : Bool
  items : List α

/-- The controller session: the listing calls `create_dicts` consumes.
`interfaces eid sid` is `get.interfaces(element_id=eid, site_id=sid)`. -/
structure Session where
  elements : Listing ElemRec
  vrfcontexts : Listing VrfRec
  interfaces : String → String → Listing IntfRec

/-- The global translation dictionaries of lines 32-41. -/
structure Tables where
  elem_id_name : List (String × String)
  elem_name_id : List (String × String)
  elemid_siteid : List (String × Option String)
  elem_id_model : List (String × String)
  element_vrfs_by_id : List (String × List (String × String))
  element_vrfs_by_name : List (String × List (String × String))
  element_interfaces_by_id : List (String × List (String × String))
  element_interfaces_by_name : List (String × List (String × String))
  global_id_vfr : List (String × String)
  global_name_vfr : List (String × String)
deriving DecidableEq, Repr

/-- All dictionaries start empty (lines 32-41). -/
def emptyTables : Tables :=
  ⟨[], [], [], [], [], [], [], [], [], []⟩

/-- Diagnostics emitted by `create_dicts`. -/
inductive DictEvent
  /-- Line 105: `WARN: No site ID found for element ...`. -/
  | warnNoSiteId (ename eid : String)
  /-- Line 101: `ERR: Could not retrieve interfaces for element ...`. -/
  | errIntfList (ename eid : String)
deriving DecidableEq, Repr

/-- Lines 58-67: the element loop of `create_dicts`, populating the four
element dictionaries and initialising the per-element VRF and interface
dictionaries to empty dicts. -/
def addElems : Tables → List ElemRec → Tables
  | t, [] => t
  | t, e :: rest =>
    addElems
      { t with
        elem_id_name := dinsert t.elem_id_name e.id e.name,
        elem_name_id := dinsert t.elem_name_id e.name e.id,
        elemid_siteid := dinsert t.elemid_siteid e.id e.site_id,
        elem_id_model := dinsert t.elem_id_model e.id e.model_name,
        element_vrfs_by_id := dinsert t.element_vrfs_by_id e.id [],
        element_vrfs_by_name := dinsert t.element_vrfs_by_name e.id [],
        element_interfaces_by_id := dinsert t.element_interfaces_by_id e.id [],
        element_interfaces_by_name :=
          dinsert t.element_interfaces_by_name e.id [] }
      rest

/-- Lines 79-81: the VRF loop of `create_dicts`, extending the pair
`(global_id_vfr, global_name_vfr)`. -/
def buildVrfDictsFrom :
    List (String × String) × List (String × String) → List VrfRec →
    List (String × String) × List (String × String)
  | d, [] => d
  | d, v :: rest =>
    buildVrfDictsFrom (dinsert d.1 v.id v.name, dinsert d.2 v.name v.id) rest

/-- Lines 96-99: the inner interface loop of `create_dicts`, extending one
element's pair of interface dictionaries. -/
def buildIntfDicts :
    List (String × String) × List (String × String) → List IntfRec →
    List (String × String) × List (String × String)
  | d, [] => d
  | d, i :: rest =>
    buildIntfDicts (dinsert d.1 i.id i.name, dinsert d.2 i.name i.id) rest

/-- Lines 90-105: the per-element interface phase of `create_dicts`,
iterating `elem_id_name.items()`.  For each element: look up its site id
(`elemid_siteid.get(elem_id)`, falsy when absent, null or empty), and
either fetch and record its interfaces, log a retrieval error and move on
(line 103: continue to next element if one fails), or log the missing
site id warning. -/
def intfPhase (s : Session) :
    Tables × List DictEvent → List (String × String) → Tables × List DictEvent
  | acc, [] => acc
  | (t, evs), (eid, ename) :: rest =>
    match (dget t.elemid_siteid eid).getD none with
    | some ss =>
      if ss == "" then
        intfPhase s (t, evs ++ [DictEvent.warnNoSiteId ename eid]) rest
      else
        let respint := s.interfaces eid ss
        if respint.cgx_status then
          let built := buildIntfDicts
            ((dget t.element_interfaces_by_id eid).getD [],
             (dget t.element_interfaces_by_name eid).getD [])
            respint.items
          intfPhase s
            ({ t with
               element_interfaces_by_id :=
                 dinsert t.element_interfaces_by_id eid built.1,
               element_interfaces_by_name :=
                 dinsert t.element_interfaces_by_name eid built.2 },
             evs) rest
        else
          intfPhase s (t, evs ++ [DictEvent.errIntfList ename eid]) rest
    | none =>
      intfPhase s (t, evs ++ [DictEvent.warnNoSiteId ename eid]) rest

/-- Lines 47-106: `create_dicts`.  A failed element listing (lines 68-71)
or VRF listing (lines 82-85) calls `sys.exit(1)`, modeled as `none`; a
successful run returns the populated tables plus the non-fatal
diagnostics emitted along the way. -/
def create_dicts (s : Session) : Option (Tables × List DictEvent) :=
  if s.elements.cgx_status then
    let t0 := addElems emptyTables s.elements.items
    if s.vrfcontexts.cgx_status then
      let gv := buildVrfDictsFrom (t0.global_id_vfr, t0.global_name_vfr)
        s.vrfcontexts.items
      let t1 := { t0 with global_id_vfr := gv.1, global_name_vfr := gv.2 }
      some (intfPhase s (t1, []) t1.elem_id_name)
    else none
  else none

/-- A write call issued to the controller by the reconciliation loops,
with its scoping parameters and payload. -/
inductive WriteCall
  /-- Line 261: `post.staticroutes(site_id, element_id, data)`. -/
  | postRoute (site_id element_id : String) (data : RoutePayload)
  /-- Line 250: `put.staticroutes(site_id, element_id, staticroute_id, data)`. -/
  | putRoute (site_id element_id staticroute_id : String) (data : RoutePayload)
  /-- Line 328: `post.interfaces(site_id, element_id, data)`. -/
  | postIntf (site_id element_id : String) (data : IntfPayload)
  /-- Line 316: `put.interfaces(site_id, element_id, interface_id, data)`. -/
  | putIntf (site_id element_id interface_id : String) (data : IntfPayload)
deriving DecidableEq, Repr

/-- Observable events of the reconciliation loops: the WARN diagnostics
printed and the write calls issued (with the controller's reported
outcome). -/
inductive Event
  /-- Line 209: `WARN: Could not find name for source VRF ID ... Skipping route`. -/
  | warnUnknownSrcVrf (src_vrf_id dest_pfx : String)
  /-- Line 206: `WARN: VRF ... not found in global VRF list ... Skipping route`. -/
  | warnVrfNotGlobal (vrf_name src_vrf_id dest_pfx : String)
  /-- Line 227: `WARN: Could not find name for source interface ID ... Skipping route`. -/
  | warnNoSrcIntfName (src_intf_id dest_pfx : String)
  /-- Line 223: `WARN: Interface ... no matching interface found on destination ... Skipping route`. -/
  | warnNoDstIntf (intf_name src_intf_id dest_pfx : String)
  /-- Line 244: `WARN: ETag not found for existing destination route ...`. -/
  | warnNoEtagRoute (route_name route_id : String)
  /-- Line 311: `WARN: ETag not found for existing destination interface ...`. -/
  | warnNoEtagIntf (intf_name : String)
  /-- Lines 250-255 / 261-266 / 316-321 / 328-333: a write call and its
  reported outcome (`SUCCESS` when the oracle answers true, `ERR`
  otherwise; either way the loop moves to the next record). -/
  | wrote (call : WriteCall) (ok : Bool)
deriving DecidableEq, Repr

/-- Line 192: `route_payload = copy.deepcopy(source_route)` viewed as a
payload (the record's own `id` and `_etag` still present). -/
def toRoutePayload (r : RouteRec) : RoutePayload :=
  ⟨some r.id, r.name, r.dest_pfx, r.vrf_context_id, r.etag, r.nexthops, r.meta⟩

/-- Lines 194-196 on a route payload: the popped attributes are metadata
attributes, which live in `meta` in the structured model. -/
def sanitizeRoutePayload (p : RoutePayload) : RoutePayload :=
  { p with meta := popMetaAll BASE_DELETE_ATTRS p.meta }

/-- Result of the VRF-reference rewriting step for one route. -/
inductive VrfResult
  /-- The route survives with the (possibly rewritten) payload. -/
  | ok (p : RoutePayload)
  /-- The route is skipped (`continue` in the outer route loop) with the
  given diagnostic. -/
  | skip (ev : Event)
deriving DecidableEq, Repr

/-- Lines 198-210: the VRF-reference rewriting step.  A falsy
`vrf_context_id` (absent, null or empty) leaves the payload untouched.
The two lookups are guarded by Python truthiness on their *results*
(line 201 `if vrf_name:`, line 203 `if new_vrf_context_id:`), so a
lookup that yields an absent key or an empty string both count as
failure and skip the whole route with the corresponding diagnostic. -/
def vrfStep (global_id_vfr global_name_vfr : List (String × String))
    (p : RoutePayload) : VrfResult :=
  match p.vrf_context_id with
  | some v =>
    if v == "" then .ok p
    else
      match dget global_id_vfr v with
      | some vrf_name =>
        if vrf_name == "" then .skip (.warnUnknownSrcVrf v p.dest_pfx)
        else
          match dget global_name_vfr vrf_name with
          | some new_id =>
            if new_id == "" then
              .skip (.warnVrfNotGlobal vrf_name v p.dest_pfx)
            else .ok { p with vrf_context_id := some new_id }
          | none => .skip (.warnVrfNotGlobal vrf_name v p.dest_pfx)
      | none => .skip (.warnUnknownSrcVrf v p.dest_pfx)
  | none => .ok p

/-- Lines 213-229: one iteration of the nexthop loop.  Both lookups are
guarded by Python truthiness on their *results* (line 217
`if interface_name:`, line 220 `if new_nexthop_interface_id:`), so an
absent key and an empty string both count as a failed lookup.  NOTE: in
the source, both failure branches print `... Skipping route ...` and
execute `continue`, but that `continue` sits inside the *inner*
`for nexthop` loop, so only the current nexthop is skipped: the nexthop
keeps its source interface id and the route proceeds to the
create/update step. -/
def rewriteNexthop (src_by_id dst_by_name : List (String × String))
    (pfx : String) (nh : Nexthop) : Nexthop × List Event :=
  match nh.nexthop_interface_id with
  | some sid =>
    if sid == "" then (nh, [])
    else
      match dget src_by_id sid with
      | some intf_name =>
        if intf_name == "" then (nh, [Event.warnNoSrcIntfName sid pfx])
        else
          match dget dst_by_name intf_name with
          | some new_id =>
            if new_id == "" then (nh, [Event.warnNoDstIntf intf_name sid pfx])
            else ({ nh with nexthop_interface_id := some new_id }, [])
          | none => (nh, [Event.warnNoDstIntf intf_name sid pfx])
      | none => (nh, [Event.warnNoSrcIntfName sid pfx])
  | none => (nh, [])

/-- Lines 212-229: the nexthop loop over `route_payload["nexthops"]`
(the `if route_payload.get("nexthops"):` guard is a no-op on the empty
list). -/
def rewriteNexthops (src_by_id dst_by_name : List (String × String))
    (pfx : String) : List Nexthop → List Nexthop × List Event
  | [] => ([], [])
  | nh :: rest =>
    let r1 := rewriteNexthop src_by_id dst_by_name pfx nh
    let r2 := rewriteNexthops src_by_id dst_by_name pfx rest
    (r1.1 :: r2.1, r1.2 ++ r2.2)

/-- Lines 231-266: the create-or-update decision for one route payload.
The natural key is `destination_prefix`.  On the update path the
destination record's `_etag` replaces the payload's when present
(line 242); when the destination record has no `_etag` the code only
warns -- the payload keeps whatever `_etag` the *source* record carried
(line 244, nothing is popped). On the create path `id` and `_etag` are
popped (lines 257-258). -/
def upsertRoute (dst_sid dst_eid : String)
    (dst_routes_by_pfx : List (String × RouteRec))
    (server : WriteCall → Bool) (p : RoutePayload) : List Event :=
  match dget dst_routes_by_pfx p.dest_pfx with
  | some existing =>
    let warns : List Event :=
      match existing.etag with
      | some _ => []
      | none => [Event.warnNoEtagRoute p.name existing.id]
    let p1 :=
      match existing.etag with
      | some e => { p with etag := some e }
      | none => p
    let p2 := { p1 with id := some existing.id }
    let c := WriteCall.putRoute dst_sid dst_eid existing.id p2
    warns ++ [Event.wrote c (server c)]
  | none =>
    let p1 := { p with id := none, etag := none }
    let c := WriteCall.postRoute dst_sid dst_eid p1
    [Event.wrote c (server c)]

/-- Lines 191-266: processing of one source static route.  The
per-element interface dictionaries are read at the validated source and
destination element ids (the Python code indexes
`element_interfaces_by_id[src_eid]` directly; totality of that lookup is
established separately, see the claim about table population). -/
def processRoute (t : Tables) (src_eid dst_eid dst_sid : String)
    (dst_routes_by_pfx : List (String × RouteRec))
    (server : WriteCall → Bool) (source_route : RouteRec) : List Event :=
  let p0 := sanitizeRoutePayload (toRoutePayload source_route)
  match vrfStep t.global_id_vfr t.global_name_vfr p0 with
  | .skip ev => [ev]
  | .ok p1 =>
    let src_by_id := (dget t.element_interfaces_by_id src_eid).getD []
    let dst_by_name := (dget t.element_interfaces_by_name dst_eid).getD []
    let rw := rewriteNexthops src_by_id dst_by_name p1.dest_pfx p1.nexthops
    let p2 := { p1 with nexthops := rw.1 }
    rw.2 ++ upsertRoute dst_sid dst_eid dst_routes_by_pfx server p2

/-- The route loop of line 191, in source listing order. -/
def processRoutes (t : Tables) (src_eid dst_eid dst_sid : String)
    (dst_routes_by_pfx : List (String × RouteRec))
    (server : WriteCall → Bool) : List RouteRec → List Event
  | [] => []
  | r :: rest =>
    processRoute t src_eid dst_eid dst_sid dst_routes_by_pfx server r ++
      processRoutes t src_eid dst_eid dst_sid dst_routes_by_pfx server rest

/-- Line 184: `{route["destination_prefix"]: route for route in list}`. -/
def dstRoutesByPfx (l : List RouteRec) : List (String × RouteRec) :=
  l.foldl (fun d r => dinsert d r.dest_pfx r) []

/-- Line 295: `intf_payload = copy.deepcopy(intf)` viewed as a payload. -/
def toIntfPayload (i : IntfRec) : IntfPayload :=
  ⟨some i.id, i.name, i.type, i.etag, i.meta⟩

/-- Lines 297-299 on an interface payload. -/
def sanitizeIntfPayload (p : IntfPayload) : IntfPayload :=
  { p with meta := popMetaAll BASE_DELETE_ATTRS p.meta }

/-- Lines 301-333: the create-or-update decision for one interface
payload.  Natural key is `name`; the `_etag` handling mirrors the route
path (the source `_etag` is kept when the destination record has none). -/
def upsertIntf (dst_sid dst_eid : String)
    (dst_intfs_by_name : List (String × IntfRec))
    (server : WriteCall → Bool) (p : IntfPayload) : List Event :=
  match dget dst_intfs_by_name p.name with
  | some existing =>
    let warns : List Event :=
      match existing.etag with
      | some _ => []
      | none => [Event.warnNoEtagIntf p.name]
    let p1 :=
      match existing.etag with
      | some e => { p with etag := some e }
      | none => p
    let p2 := { p1 with id := some existing.id }
    let c := WriteCall.putIntf dst_sid dst_eid existing.id p2
    warns ++ [Event.wrote c (server c)]
  | none =>
    let p1 := { p with id := none, etag := none }
    let c := WriteCall.postIntf dst_sid dst_eid p1
    [Event.wrote c (server c)]

/-- Lines 293-333: processing of one source interface.  Only records of
type `"vlan"` or `"subinterface"` enter the copy logic (line 294); every
other type produces no output at all. -/
def processIntf (dst_sid dst_eid : String)
    (dst_intfs_by_name : List (String × IntfRec))
    (server : WriteCall → Bool) (intf : IntfRec) : List Event :=
  if intf.type == "vlan" || intf.type == "subinterface" then
    upsertIntf dst_sid dst_eid dst_intfs_by_name server
      (sanitizeIntfPayload (toIntfPayload intf))
  else []

/-- The interface loop of line 293, in source listing order. -/
def processIntfs (dst_sid dst_eid : String)
    (dst_intfs_by_name : List (String × IntfRec))
    (server : WriteCall → Bool) : List IntfRec → List Event
  | [] => []
  | i :: rest =>
    processIntf dst_sid dst_eid dst_intfs_by_name server i ++
      processIntfs dst_sid dst_eid dst_intfs_by_name server rest

/-- Line 286: the destination interface index, keyed by name, restricted
to the translatable types. -/
def dstIntfsByName (l : List IntfRec) : List (String × IntfRec) :=
  l.foldl
    (fun d i =>
      if i.type == "vlan" || i.type == "subinterface" then dinsert d i.name i
      else d)
    []

/-- Events that terminate a route's processing in the state machine of
the spec: a whole-route skip (the VRF skip diagnostics are the only ones
the code actually skips on) or a write outcome. -/
def isTerminal : Event → Bool
  | .warnUnknownSrcVrf _ _ => true
  | .warnVrfNotGlobal _ _ _ => true
  | .wrote _ _ => true
  | _ => false

/-- The write calls among a list of events. -/
def writeCalls (evs : List Event) : List WriteCall :=
  evs.filterMap fun e =>
    match e with
    | .wrote c _ => some c
    | _ => none

/-! ## Dictionary lemmas -/

theorem dget_cons {β : Type} (a : String) (b : β) (t : List (String × β))
    (k : String) : dget ((a, b) :: t) k = if a = k then some b else dget t k := by
  simp [dget]

theorem dget_dinsert {β : Type} (d : List (String × β)) (k k2 : String)
    (v : β) : dget (dinsert d k v) k2 = if k2 = k then some v else dget d k2 := by
  induction d with
  | nil =>
    by_cases h : k2 = k
    · subst h; simp [dinsert, dget]
    · simp [dinsert, dget, h, Ne.symm h]
  | cons p t ih =>
    by_cases hp : p.1 = k
    · by_cases h : k2 = k
      · subst h; simp [dinsert, dget, hp]
      · simp [dinsert, dget, hp, h, Ne.symm h]
    · by_cases h : k2 = k
      · subst h
        simp [dinsert, dget, hp, ih]
      · by_cases hq : p.1 = k2
        · simp [dinsert, dget, hp, hq, h]
        · simp [dinsert, dget, hp, hq, h, ih]

theorem dget_dinsert_self {β : Type} (d : List (String × β)) (k : String)
    (v : β) : dget (dinsert d k v) k = some v := by
  simp [dget_dinsert]

theorem dget_dinsert_ne {β : Type} (d : List (String × β)) (k k2 : String)
    (v : β) (h : k2 ≠ k) : dget (dinsert d k v) k2 = dget d k2 := by
  simp [dget_dinsert, h]

theorem isSome_dget_dinsert {β : Type} (d : List (String × β)) (k k2 : String)
    (v : β) (h : (dget d k2).isSome) : (dget (dinsert d k v) k2).isSome := by
  by_cases h2 : k2 = k
  · subst h2; simp [dget_dinsert]
  · simpa [dget_dinsert_ne d k k2 v h2] using h

theorem mem_dinsert {β : Type} (d : List (String × β)) (k : String) (v : β)
    (q : String × β) (h : q ∈ dinsert d k v) : q = (k, v) ∨ q ∈ d := by
  induction d with
  | nil => simp [dinsert] at h; simp [h]
  | cons p t ih =>
    by_cases hp : p.1 = k
    · simp [dinsert, hp] at h
      rcases h with h | h
      · exact Or.inl h
      · exact Or.inr (List.mem_cons_of_mem p h)
    · simp [dinsert, hp] at h
      rcases h with h | h
      · exact Or.inr (by simp [h])
      · rcases ih h with h2 | h2
        · exact Or.inl h2
        · exact Or.inr (List.mem_cons_of_mem p h2)

theorem dget_mem {β : Type} (d : List (String × β)) (k : String) (v : β)
    (h : dget d k = some v) : (k, v) ∈ d := by
  induction d with
  | nil => simp [dget] at h
  | cons p t ih =>
    rcases p with ⟨a, b⟩
    by_cases hp : a = k
    · simp [dget, hp] at h
      subst hp; subst h
      exact List.mem_cons_self _ _
    · simp [dget, hp] at h
      exact List.mem_cons_of_mem _ (ih h)

theorem dinsert_absent {β : Type} (d : List (String × β)) (k : String)
    (v : β) (h : dget d k = none) : dinsert d k v = d ++ [(k, v)] := by
  induction d with
  | nil => simp [dinsert]
  | cons p t ih =>
    by_cases hp : p.1 = k
    · simp [dget, hp] at h
    · simp [dget, hp] at h
      simp [dinsert, hp, ih h]

theorem dget_append {β : Type} (d1 d2 : List (String × β)) (k : String) :
    dget (d1 ++ d2) k =
      match dget d1 k with
      | some v => some v
      | none => dget d2 k := by
  induction d1 with
  | nil => simp [dget]
  | cons p t ih =>
    by_cases hp : p.1 = k
    · simp [dget, hp]
    · simp [dget, hp, ih]

/-! ## Sanitizer lemmas -/

theorem popAll_not_mem (l : List String) (r : JsonRec) (k : String)
    (h : k ∉ l) : popAll l r k = r k := by
  induction l generalizing r with
  | nil => rfl
  | cons a t ih =>
    simp at h
    have h2 : popAll (a :: t) r = popAll t (popAttr r a) := rfl
    rw [h2, ih (popAttr r a) h.2]
    simp [popAttr, h.1]

theorem popAll_mem (l : List String) (r : JsonRec) (k : String)
    (h : k ∈ l) : popAll l r k = none := by
  induction l generalizing r with
  | nil => simp at h
  | cons a t ih =>
    have h2 : popAll (a :: t) r = popAll t (popAttr r a) := rfl
    rw [h2]
    by_cases hk : k ∈ t
    · exact ih (popAttr r a) hk
    · have ha : k = a := by
        rcases List.mem_cons.mp h with h3 | h3
        · exact h3
        · exact absurd h3 hk
      rw [popAll_not_mem t (popAttr r a) k hk]
      simp [popAttr, ha]

theorem dget_popMeta (m : List (String × String)) (a k : String) :
    dget (popMeta m a) k = if k = a then none else dget m k := by
  induction m with
  | nil => simp [popMeta, dget]
  | cons p t ih =>
    rcases p with ⟨x, y⟩
    by_cases hx : x = a
    · have hdrop : popMeta ((x, y) :: t) a = popMeta t a := by
        simp [popMeta, List.filter_cons, hx]
      rw [hdrop, ih]
      by_cases hk : k = a
      · simp [hk]
      · have hxk : ¬ x = k := by rw [hx]; exact fun h2 => hk h2.symm
        simp [hk, dget, hxk]
    · have hkeep : popMeta ((x, y) :: t) a = (x, y) :: popMeta t a := by
        simp [popMeta, List.filter_cons, hx]
      rw [hkeep]
      by_cases hxk : x = k
      · have hk : ¬ k = a := fun h2 => hx (by rw [hxk]; exact h2)
        simp [dget, hxk, hk]
      · simp [dget, hxk, ih]

theorem dget_popMetaAll_not_mem (l : List String)
    (m : List (String × String)) (k : String) (h : k ∉ l) :
    dget (popMetaAll l m) k = dget m k := by
  induction l generalizing m with
  | nil => rfl
  | cons a t ih =>
    simp at h
    have h2 : popMetaAll (a :: t) m = popMetaAll t (popMeta m a) := rfl
    rw [h2, ih (popMeta m a) h.2, dget_popMeta]
    simp [h.1]

theorem dget_popMetaAll_mem (l : List String) (m : List (String × String))
    (k : String) (h : k ∈ l) : dget (popMetaAll l m) k = none := by
  induction l generalizing m with
  | nil => simp at h
  | cons a t ih =>
    have h2 : popMetaAll (a :: t) m = popMetaAll t (popMeta m a) := rfl
    rw [h2]
    by_cases hk : k ∈ t
    · exact ih (popMeta m a) hk
    · have ha : k = a := by
        rcases List.mem_cons.mp h with h3 | h3
        · exact h3
        · exact absurd h3 hk
      rw [dget_popMetaAll_not_mem t (popMeta m a) k hk, dget_popMeta]
      simp [ha]

/-! ## Loop structure lemmas -/

/-- Whether an event is a write call with its outcome. -/
def isWriteEvent : Event → Bool
  | .wrote _ _ => true
  | _ => false

theorem processRoutes_append (t : Tables) (src_eid dst_eid dst_sid : String)
    (idx : List (String × RouteRec)) (server : WriteCall → Bool)
    (rs1 rs2 : List RouteRec) :
    processRoutes t src_eid dst_eid dst_sid idx server (rs1 ++ rs2) =
      processRoutes t src_eid dst_eid dst_sid idx server rs1 ++
        processRoutes t src_eid dst_eid dst_sid idx server rs2 := by
  induction rs1 with
  | nil => rfl
  | cons r rest ih => simp [processRoutes, ih]

theorem processIntfs_append (dst_sid dst_eid : String)
    (idx : List (String × IntfRec)) (server : WriteCall → Bool)
    (is1 is2 : List IntfRec) :
    processIntfs dst_sid dst_eid idx server (is1 ++ is2) =
      processIntfs dst_sid dst_eid idx server is1 ++
        processIntfs dst_sid dst_eid idx server is2 := by
  induction is1 with
  | nil => rfl
  | cons i rest ih => simp [processIntfs, ih]

theorem vrfStep_skip_terminal (g1 g2 : List (String × String))
    (p : RoutePayload) (ev : Event) (h : vrfStep g1 g2 p = .skip ev) :
    isTerminal ev = true ∧ isWriteEvent ev = false := by
  unfold vrfStep at h
  rcases hv : p.vrf_context_id with _ | v
  · rw [hv] at h; simp at h
  · rw [hv] at h
    by_cases hz : (v == "") = true
    · simp [hz] at h
    · simp only [Bool.not_eq_true] at hz
      simp only [hz, Bool.false_eq_true, if_false] at h
      rcases h1 : dget g1 v with _ | nm
      · simp only [h1] at h
        simp at h
        simp [← h, isTerminal, isWriteEvent]
      · simp only [h1] at h
        by_cases hnm : (nm == "") = true
        · simp [hnm] at h
          simp [← h, isTerminal, isWriteEvent]
        · simp only [Bool.not_eq_true] at hnm
          simp only [hnm, Bool.false_eq_true, if_false] at h
          rcases h2 : dget g2 nm with _ | j
          · simp only [h2] at h
            simp at h
            simp [← h, isTerminal, isWriteEvent]
          · simp only [h2] at h
            by_cases hj : (j == "") = true
            · simp [hj] at h
              simp [← h, isTerminal, isWriteEvent]
            · simp only [Bool.not_eq_true] at hj
              simp only [hj, Bool.false_eq_true, if_false] at h
              simp at h

theorem rewriteNexthop_events (s d : List (String × String)) (pfx : String)
    (nh : Nexthop) :
    ∀ e ∈ (rewriteNexthop s d pfx nh).2,
      isTerminal e = false ∧ isWriteEvent e = false := by
  unfold rewriteNexthop
  rcases hv : nh.nexthop_interface_id with _ | sid
  · simp
  · by_cases hz : (sid == "") = true
    · simp [hz]
    · simp only [Bool.not_eq_true] at hz
      simp only [hz, Bool.false_eq_true, if_false]
      rcases h1 : dget s sid with _ | nm
      · simp [h1, isTerminal, isWriteEvent]
      · by_cases hnm : (nm == "") = true
        · simp [h1, hnm, isTerminal, isWriteEvent]
        · simp only [Bool.not_eq_true] at hnm
          rcases h2 : dget d nm with _ | nid
          · simp [h1, h2, hnm, isTerminal, isWriteEvent]
          · by_cases hnid : (nid == "") = true
            · simp [h1, h2, hnm, hnid, isTerminal, isWriteEvent]
            · simp only [Bool.not_eq_true] at hnid
              simp [h1, h2, hnm, hnid]

theorem rewriteNexthops_events (s d : List (String × String)) (pfx : String)
    (l : List Nexthop) :
    ∀ e ∈ (rewriteNexthops s d pfx l).2,
      isTerminal e = false ∧ isWriteEvent e = false := by
  induction l with
  | nil => simp [rewriteNexthops]
  | cons nh rest ih =>
    intro e he
    simp only [rewriteNexthops, List.mem_append] at he
    rcases he with he | he
    · exact rewriteNexthop_events s d pfx nh e he
    · exact ih e he

theorem writeCalls_append (a b : List Event) :
    writeCalls (a ++ b) = writeCalls a ++ writeCalls b := by
  simp [writeCalls]

theorem writeCalls_eq_nil (evs : List Event)
    (h : ∀ e ∈ evs, isWriteEvent e = false) : writeCalls evs = [] := by
  induction evs with
  | nil => rfl
  | cons e rest ih =>
    have h1 := h e (List.mem_cons_self _ _)
    have h2 : writeCalls rest = [] := ih fun x hx => h x (List.mem_cons_of_mem _ hx)
    rcases e with a | a | a | a | a | a | c
    · simpa [writeCalls, List.filterMap_cons] using h2
    · simpa [writeCalls, List.filterMap_cons] using h2
    · simpa [writeCalls, List.filterMap_cons] using h2
    · simpa [writeCalls, List.filterMap_cons] using h2
    · simpa [writeCalls, List.filterMap_cons] using h2
    · simpa [writeCalls, List.filterMap_cons] using h2
    · simp [isWriteEvent] at h1

theorem countP_eq_zero_of (evs : List Event)
    (h : ∀ e ∈ evs, isTerminal e = false) : evs.countP isTerminal = 0 := by
  induction evs with
  | nil => rfl
  | cons e rest ih =>
    have h1 := h e (List.mem_cons_self _ _)
    have h2 := ih fun x hx => h x (List.mem_cons_of_mem _ hx)
    simp [List.countP_cons, h1, h2]

theorem upsertRoute_writeCalls (dst_sid dst_eid : String)
    (idx : List (String × RouteRec)) (server : WriteCall → Bool)
    (p : RoutePayload) :
    writeCalls (upsertRoute dst_sid dst_eid idx server p) =
      [match dget idx p.dest_pfx with
       | some d =>
         WriteCall.putRoute dst_sid dst_eid d.id
           { p with id := some d.id,
                    etag := match d.etag with
                            | some e2 => some e2
                            | none => p.etag }
       | none =>
         WriteCall.postRoute dst_sid dst_eid { p with id := none, etag := none }] := by
  unfold upsertRoute
  rcases h : dget idx p.dest_pfx with _ | d
  · simp [writeCalls]
  · rcases h2 : d.etag with _ | e2 <;> simp [h2, writeCalls]

theorem upsertRoute_countP (dst_sid dst_eid : String)
    (idx : List (String × RouteRec)) (server : WriteCall → Bool)
    (p : RoutePayload) :
    (upsertRoute dst_sid dst_eid idx server p).countP isTerminal = 1 := by
  unfold upsertRoute
  rcases h : dget idx p.dest_pfx with _ | d
  · simp [List.countP_cons, isTerminal]
  · rcases h2 : d.etag with _ | e2 <;>
      simp [h2, List.countP_cons, List.countP_append, isTerminal]

theorem upsertIntf_writeCalls (dst_sid dst_eid : String)
    (idx : List (String × IntfRec)) (server : WriteCall → Bool)
    (p : IntfPayload) :
    writeCalls (upsertIntf dst_sid dst_eid idx server p) =
      [match dget idx p.name with
       | some d =>
         WriteCall.putIntf dst_sid dst_eid d.id
           { p with id := some d.id,
                    etag := match d.etag with
                            | some e2 => some e2
                            | none => p.etag }
       | none =>
         WriteCall.postIntf dst_sid dst_eid { p with id := none, etag := none }] := by
  unfold upsertIntf
  rcases h : dget idx p.name with _ | d
  · simp [writeCalls]
  · rcases h2 : d.etag with _ | e2 <;> simp [h2, writeCalls]

theorem upsertIntf_countP (dst_sid dst_eid : String)
    (idx : List (String × IntfRec)) (server : WriteCall → Bool)
    (p : IntfPayload) :
    (upsertIntf dst_sid dst_eid idx server p).countP isWriteEvent = 1 := by
  unfold upsertIntf
  rcases h : dget idx p.name with _ | d
  · simp [List.countP_cons, isWriteEvent]
  · rcases h2 : d.etag with _ | e2 <;>
      simp [h2, List.countP_cons, List.countP_append, isWriteEvent]

theorem processRoute_countP (t : Tables) (src_eid dst_eid dst_sid : String)
    (idx : List (String × RouteRec)) (server : WriteCall → Bool)
    (r : RouteRec) :
    (processRoute t src_eid dst_eid dst_sid idx server r).countP isTerminal = 1 := by
  unfold processRoute
  rcases h : vrfStep t.global_id_vfr t.global_name_vfr
      (sanitizeRoutePayload (toRoutePayload r)) with p1 | ev
  · simp only [h]
    rw [List.countP_append]
    rw [countP_eq_zero_of _
      (fun e he => (rewriteNexthops_events _ _ _ _ e he).1)]
    rw [upsertRoute_countP]
  · have := (vrfStep_skip_terminal _ _ _ _ h).1
    simp only [h]
    simp [List.countP_cons, this]

theorem dstIntfsByName_types_aux (dl : List IntfRec)
    (acc : List (String × IntfRec))
    (hacc : ∀ q ∈ acc, q.2.type = "vlan" ∨ q.2.type = "subinterface") :
    ∀ q ∈ dl.foldl
        (fun d i =>
          if i.type == "vlan" || i.type == "subinterface" then
            dinsert d i.name i
          else d)
        acc,
      q.2.type = "vlan" ∨ q.2.type = "subinterface" := by
  induction dl generalizing acc with
  | nil => exact hacc
  | cons i rest ih =>
    simp only [List.foldl_cons]
    by_cases hty : (i.type == "vlan" || i.type == "subinterface") = true
    · rw [if_pos hty]
      apply ih
      intro q hq
      rcases mem_dinsert _ _ _ _ hq with h | h
      · subst h
        simpa using hty
      · exact hacc q h
    · rw [if_neg hty]
      exact ih acc hacc

/-! ## Concrete scenarios exercising the nexthop and ETag handling -/

/-- Translation tables for a two-element tenant: the source element `SRC`
owns interface `i1` named `vlan10`; the destination element `DST` has no
interfaces at all, so `vlan10` has no destination translation. -/
def tBug : Tables :=
  { emptyTables with
    element_interfaces_by_id := [("SRC", [("i1", "vlan10")])],
    element_interfaces_by_name := [("DST", [])] }

/-- A source route whose single nexthop references interface `i1`, which
resolves to the name `vlan10` on the source but has no match on the
destination. -/
def rBug1 : RouteRec :=
  ⟨"r1", "route one", "10.0.0.0/8", none, none, [⟨some "i1", none⟩], []⟩

/-- A second route in the same situation, used for the identifier-leakage
scenario. -/
def rBug2 : RouteRec :=
  ⟨"r2", "route two", "10.2.0.0/16", none, none, [⟨some "i1", none⟩], []⟩

/-- A source route that carries its own `_etag` from the listing. -/
def rEtag : RouteRec :=
  ⟨"rS", "corp route", "10.4.0.0/16", none, some "E-SRC", [], []⟩

/-- An existing destination route with the same `destination_prefix` but
no `_etag` of its own. -/
def dstEtagRoute : RouteRec :=
  ⟨"R9", "corp route", "10.4.0.0/16", none, none, [], []⟩

/-! ## Claims -/

/-- C1: the claim says that a route with an unresolvable nexthop
interface reference yields zero create/update calls and exactly one skip
report.  The code contradicts its own "Skipping route" message and
comments: the `continue` at lines 225/228 is inside the inner nexthop
loop, so the route is NOT dropped.  At the concrete failing input the
run emits the skip diagnostic and then still issues one create call
(whose nexthop still carries the untranslated source interface id). -/
theorem claim_C1 :
    processRoute tBug "SRC" "DST" "SITE" [] (fun _ => true) rBug1 =
      [Event.warnNoDstIntf "vlan10" "i1" "10.0.0.0/8",
       Event.wrote
         (WriteCall.postRoute "SITE" "DST"
           ⟨none, "route one", "10.0.0.0/8", none, none,
            [⟨some "i1", none⟩], []⟩)
         true] ∧
    (writeCalls
      (processRoute tBug "SRC" "DST" "SITE" [] (fun _ => true) rBug1)).length
      = 1 := by
  exact ⟨rfl, rfl⟩

/-- C2: the claim says that no write payload ever carries a
source-device-scoped identifier.  Because the nexthop `continue` bug
(lines 225/228) does not actually skip the route, the create call issued
for `rBug2` carries `i1` as its `nexthop_interface_id` even though `i1`
belongs to the source element's interface id space and has no
destination translation. -/
theorem claim_C2 :
    writeCalls (processRoute tBug "SRC" "DST" "SITE" [] (fun _ => true) rBug2) =
      [WriteCall.postRoute "SITE" "DST"
        ⟨none, "route two", "10.2.0.0/16", none, none,
         [⟨some "i1", none⟩], []⟩] ∧
    dget ((dget tBug.element_interfaces_by_id "SRC").getD []) "i1"
      = some "vlan10" ∧
    dget ((dget tBug.element_interfaces_by_name "DST").getD []) "vlan10"
      = none := by
  exact ⟨rfl, rfl, rfl⟩

/-- C4: the claim says that when the matched destination record lacks an
`_etag`, the update payload carries no concurrency token at all.  The
code warns "Attempting PUT without ETag" (line 244) but never pops the
`_etag` the payload inherited from the *source* record, so the PUT is
sent with the source's token `E-SRC`. -/
theorem claim_C4 :
    processRoute emptyTables "SRC" "DST" "SITE"
        [("10.4.0.0/16", dstEtagRoute)] (fun _ => true) rEtag =
      [Event.warnNoEtagRoute "corp route" "R9",
       Event.wrote
         (WriteCall.putRoute "SITE" "DST" "R9"
           ⟨some "R9", "corp route", "10.4.0.0/16", none, some "E-SRC",
            [], []⟩)
         true] ∧
    rEtag.etag = some "E-SRC" ∧ dstEtagRoute.etag = none := by
  exact ⟨rfl, rfl, rfl⟩

/-- C3: no record-level condition aborts the reconciliation loops.  Both
loops are pure per-record maps: processing a concatenation of source
lists is the concatenation of the per-list processing (so the events of
later records never depend on earlier records or on their write
outcomes, whatever the `server` oracle answers); every route reaches
exactly one terminal outcome (a whole-route skip diagnostic or a
reported write outcome), and every interface of a translatable type
reaches exactly one reported write outcome, a non-translatable one none. -/
theorem claim_C3 (t : Tables) (src_eid dst_eid dst_sid : String)
    (idx : List (String × RouteRec)) (server : WriteCall → Bool)
    (rs1 rs2 : List RouteRec) (r : RouteRec)
    (idx2 : List (String × IntfRec)) (is1 is2 : List IntfRec)
    (i : IntfRec) :
    processRoutes t src_eid dst_eid dst_sid idx server (rs1 ++ rs2) =
      processRoutes t src_eid dst_eid dst_sid idx server rs1 ++
        processRoutes t src_eid dst_eid dst_sid idx server rs2 ∧
    (processRoute t src_eid dst_eid dst_sid idx server r).countP isTerminal
      = 1 ∧
    processIntfs dst_sid dst_eid idx2 server (is1 ++ is2) =
      processIntfs dst_sid dst_eid idx2 server is1 ++
        processIntfs dst_sid dst_eid idx2 server is2 ∧
    (processIntf dst_sid dst_eid idx2 server i).countP isWriteEvent =
      (if i.type == "vlan" || i.type == "subinterface" then 1 else 0) := by
  refine ⟨processRoutes_append t src_eid dst_eid dst_sid idx server rs1 rs2,
    processRoute_countP t src_eid dst_eid dst_sid idx server r,
    processIntfs_append dst_sid dst_eid idx2 server is1 is2, ?_⟩
  unfold processIntf
  by_cases hty : (i.type == "vlan" || i.type == "subinterface") = true
  · rw [if_pos hty, if_pos hty]
    exact upsertIntf_countP _ _ _ _ _
  · rw [if_neg hty, if_neg hty]
    rfl

/-- C6: sanitization removes exactly the nine server-managed attributes
of `BASE_DELETE_ATTRS` and leaves every other field unchanged; in
particular `id` and `_etag` survive.  The same holds for the structured
route and interface payloads, whose sanitization is the same projection
applied to the non-modeled attributes, all modeled fields (including
`id` and the concurrency token) being untouched. -/
theorem claim_C6 (r : JsonRec) (k : String) (p : RoutePayload)
    (q : IntfPayload) :
    (sanitize r k = if k ∈ BASE_DELETE_ATTRS then none else r k) ∧
    sanitize r "id" = r "id" ∧
    sanitize r "_etag" = r "_etag" ∧
    (dget (sanitizeRoutePayload p).meta k =
      if k ∈ BASE_DELETE_ATTRS then none else dget p.meta k) ∧
    (sanitizeRoutePayload p).id = p.id ∧
    (sanitizeRoutePayload p).etag = p.etag ∧
    (sanitizeRoutePayload p).name = p.name ∧
    (sanitizeRoutePayload p).dest_pfx = p.dest_pfx ∧
    (sanitizeRoutePayload p).vrf_context_id = p.vrf_context_id ∧
    (sanitizeRoutePayload p).nexthops = p.nexthops ∧
    (dget (sanitizeIntfPayload q).meta k =
      if k ∈ BASE_DELETE_ATTRS then none else dget q.meta k) ∧
    (sanitizeIntfPayload q).id = q.id ∧
    (sanitizeIntfPayload q).etag = q.etag ∧
    (sanitizeIntfPayload q).name = q.name ∧
    (sanitizeIntfPayload q).type = q.type := by
  refine ⟨?_, ?_, ?_, ?_, rfl, rfl, rfl, rfl, rfl, rfl, ?_, rfl, rfl, rfl, rfl⟩
  · by_cases h : k ∈ BASE_DELETE_ATTRS
    · rw [if_pos h]; exact popAll_mem _ _ _ h
    · rw [if_neg h]; exact popAll_not_mem _ _ _ h
  · exact popAll_not_mem _ _ _ (by decide)
  · exact popAll_not_mem _ _ _ (by decide)
  · by_cases h : k ∈ BASE_DELETE_ATTRS
    · rw [if_pos h]
      exact dget_popMetaAll_mem _ _ _ h
    · rw [if_neg h]
      exact dget_popMetaAll_not_mem _ _ _ h
  · by_cases h : k ∈ BASE_DELETE_ATTRS
    · rw [if_pos h]
      exact dget_popMetaAll_mem _ _ _ h
    · rw [if_neg h]
      exact dget_popMetaAll_not_mem _ _ _ h

/-- C9: only source interfaces of type `vlan` or `subinterface` ever
produce output (in particular a `physical` interface produces no write
call), and every entry of the destination matching index built at line
286 is of one of those two types. -/
theorem claim_C9 (dst_sid dst_eid : String) (idx : List (String × IntfRec))
    (server : WriteCall → Bool) (i : IntfRec) (dl : List IntfRec)
    (nm : String) (d : IntfRec) :
    (¬ (i.type = "vlan" ∨ i.type = "subinterface") →
      processIntf dst_sid dst_eid idx server i = []) ∧
    (dget (dstIntfsByName dl) nm = some d →
      d.type = "vlan" ∨ d.type = "subinterface") := by
  constructor
  · intro h
    unfold processIntf
    rw [if_neg]
    simpa using h
  · intro h
    have hm : (nm, d) ∈ dstIntfsByName dl := dget_mem _ _ _ h
    exact dstIntfsByName_types_aux dl [] (by simp) (nm, d) hm

/-- A physical interface, excluded from copying by the type filter. -/
def iPhys : IntfRec := ⟨"i9", "port1", "physical", none, []⟩

/-- A VLAN interface on the destination, eligible for the matching index. -/
def iVlan : IntfRec := ⟨"i2", "vlan10", "vlan", some "e2", []⟩

theorem claim_C9_witness :
    processIntf "SITE" "DST" [] (fun _ => true) iPhys = [] ∧
    (iVlan.type = "vlan" ∨ iVlan.type = "subinterface") := by
  constructor
  · exact (claim_C9 "SITE" "DST" [] (fun _ => true) iPhys [] "x" iPhys).1
      (by decide)
  · exact (claim_C9 "SITE" "DST" [] (fun _ => true) iPhys [iVlan] "vlan10"
      iVlan).2 (by rfl)

theorem processRoute_writeCalls (t : Tables)
    (src_eid dst_eid dst_sid : String) (idx : List (String × RouteRec))
    (server : WriteCall → Bool) (r : RouteRec) :
    writeCalls (processRoute t src_eid dst_eid dst_sid idx server r) =
      match vrfStep t.global_id_vfr t.global_name_vfr
          (sanitizeRoutePayload (toRoutePayload r)) with
      | .skip _ => []
      | .ok p1 =>
        writeCalls (upsertRoute dst_sid dst_eid idx server
          { p1 with
            nexthops := (rewriteNexthops
              ((dget t.element_interfaces_by_id src_eid).getD [])
              ((dget t.element_interfaces_by_name dst_eid).getD [])
              p1.dest_pfx p1.nexthops).1 }) := by
  unfold processRoute
  rcases h : vrfStep t.global_id_vfr t.global_name_vfr
      (sanitizeRoutePayload (toRoutePayload r)) with p1 | ev
  · simp only [h]
    rw [writeCalls_append]
    rw [writeCalls_eq_nil _
      (fun e he => (rewriteNexthops_events _ _ _ _ e he).2)]
    rw [List.nil_append]
  · simp only [h]
    apply writeCalls_eq_nil
    intro e he
    have he2 := List.mem_singleton.mp he
    subst he2
    exact (vrfStep_skip_terminal _ _ _ _ h).2

/-- C5: for every record that reaches the upsert step, the decision is
made only by natural key against the destination index: a match yields
exactly one update call, scoped to the destination site and element,
whose payload identifier is the matched destination record's identifier;
no match yields exactly one create call, scoped the same way, whose
payload carries neither an `id` nor an `_etag`.  A VRF-skipped route and
a filtered-out interface yield no write call at all. -/
theorem claim_C5 (t : Tables) (src_eid dst_eid dst_sid : String)
    (idx : List (String × RouteRec)) (server : WriteCall → Bool)
    (r : RouteRec) (idx2 : List (String × IntfRec)) (i : IntfRec) :
    (match vrfStep t.global_id_vfr t.global_name_vfr
        (sanitizeRoutePayload (toRoutePayload r)) with
     | .skip _ =>
       writeCalls (processRoute t src_eid dst_eid dst_sid idx server r) = []
     | .ok p1 =>
       let p2 : RoutePayload :=
         { p1 with
           nexthops := (rewriteNexthops
             ((dget t.element_interfaces_by_id src_eid).getD [])
             ((dget t.element_interfaces_by_name dst_eid).getD [])
             p1.dest_pfx p1.nexthops).1 }
       match dget idx p2.dest_pfx with
       | some d =>
         writeCalls (processRoute t src_eid dst_eid dst_sid idx server r) =
           [WriteCall.putRoute dst_sid dst_eid d.id
             { p2 with
               id := some d.id,
               etag := match d.etag with
                       | some e2 => some e2
                       | none => p2.etag }]
       | none =>
         writeCalls (processRoute t src_eid dst_eid dst_sid idx server r) =
           [WriteCall.postRoute dst_sid dst_eid
             { p2 with id := none, etag := none }]) ∧
    (if i.type == "vlan" || i.type == "subinterface" then
       match dget idx2 (sanitizeIntfPayload (toIntfPayload i)).name with
       | some d2 =>
         writeCalls (processIntf dst_sid dst_eid idx2 server i) =
           [WriteCall.putIntf dst_sid dst_eid d2.id
             { sanitizeIntfPayload (toIntfPayload i) with
               id := some d2.id,
               etag := match d2.etag with
                       | some e2 => some e2
                       | none => (sanitizeIntfPayload (toIntfPayload i)).etag }]
       | none =>
         writeCalls (processIntf dst_sid dst_eid idx2 server i) =
           [WriteCall.postIntf dst_sid dst_eid
             { sanitizeIntfPayload (toIntfPayload i) with
               id := none, etag := none }]
     else writeCalls (processIntf dst_sid dst_eid idx2 server i) = []) := by
  constructor
  · rcases h : vrfStep t.global_id_vfr t.global_name_vfr
        (sanitizeRoutePayload (toRoutePayload r)) with p1 | ev
    · simp only [h]
      rw [processRoute_writeCalls]
      simp only [h]
      rw [upsertRoute_writeCalls]
      rcases h2 : dget idx p1.dest_pfx with _ | d
      · simp only [h2]
      · simp only [h2]
    · simp only [h]
      rw [processRoute_writeCalls]
      simp only [h]
  · by_cases hty : (i.type == "vlan" || i.type == "subinterface") = true
    · rw [if_pos hty]
      have hpi : processIntf dst_sid dst_eid idx2 server i =
          upsertIntf dst_sid dst_eid idx2 server
            (sanitizeIntfPayload (toIntfPayload i)) := by
        unfold processIntf
        rw [if_pos hty]
      rcases h2 : dget idx2 (sanitizeIntfPayload (toIntfPayload i)).name
          with _ | d2
      · simp only [h2]
        rw [hpi, upsertIntf_writeCalls]
        simp only [h2]
      · simp only [h2]
        rw [hpi, upsertIntf_writeCalls]
        simp only [h2]
    · rw [if_neg hty]
      unfold processIntf
      rw [if_neg hty]
      rfl

theorem buildVrf_roundtrip (vrfs : List VrfRec)
    (d1 d2 : List (String × String)) (seen : List String)
    (hnd : (seen ++ vrfs.map VrfRec.name).Nodup)
    (hQ : ∀ i n, dget d1 i = some n → n ∈ seen)
    (hP : ∀ i n, dget d1 i = some n → dget d2 n = some i) :
    ∀ i n, dget (buildVrfDictsFrom (d1, d2) vrfs).1 i = some n →
      dget (buildVrfDictsFrom (d1, d2) vrfs).2 n = some i := by
  induction vrfs generalizing d1 d2 seen with
  | nil => exact hP
  | cons vrf rest ih =>
    have hnotseen : vrf.name ∉ seen := by
      have hdisj := (List.nodup_append.mp (by simpa using hnd)).2.2
      exact fun hmem => hdisj hmem (by simp)
    have hnd2 : ((seen ++ [vrf.name]) ++ rest.map VrfRec.name).Nodup := by
      rw [List.append_assoc]
      simpa using hnd
    have step : buildVrfDictsFrom (d1, d2) (vrf :: rest) =
        buildVrfDictsFrom
          (dinsert d1 vrf.id vrf.name, dinsert d2 vrf.name vrf.id) rest := rfl
    rw [step]
    apply ih _ _ (seen ++ [vrf.name]) hnd2
    · intro i n h
      rw [dget_dinsert] at h
      by_cases hi : i = vrf.id
      · rw [if_pos hi] at h
        injection h with h
        simp [← h]
      · rw [if_neg hi] at h
        exact List.mem_append_left _ (hQ i n h)
    · intro i n h
      rw [dget_dinsert] at h
      rw [dget_dinsert]
      by_cases hi : i = vrf.id
      · rw [if_pos hi] at h
        injection h with h
        subst h
        rw [if_pos rfl, hi]
      · rw [if_neg hi] at h
        have hn : n ∈ seen := hQ i n h
        have hne : ¬ n = vrf.name := fun hh => hnotseen (hh ▸ hn)
        rw [if_neg hne]
        exact hP i n h

/-- C7: the VRF rewriting step resolves the source VRF id through the
global id-to-name table and back through the global name-to-id table,
skipping the whole route with the corresponding diagnostic when either
lookup fails to produce a truthy value (absent key, or an empty name or
id -- the source tests the looked-up values with `if vrf_name:` and
`if new_vrf_context_id:`); when both lookups yield truthy values and the
two tables are built from one VRF listing with pairwise-distinct names,
the round trip is the identity (the new global id equals the source's);
a route with a falsy VRF reference passes through unchanged. -/
theorem claim_C7 (vrfs : List VrfRec)
    (hnames : (vrfs.map VrfRec.name).Nodup)
    (p : RoutePayload) (v : String) :
    (truthyOpt p.vrf_context_id = false →
      vrfStep (buildVrfDictsFrom ([], []) vrfs).1
        (buildVrfDictsFrom ([], []) vrfs).2 p = .ok p) ∧
    (p.vrf_context_id = some v → ¬ v = "" →
      (truthyOpt (dget (buildVrfDictsFrom ([], []) vrfs).1 v) = false →
        vrfStep (buildVrfDictsFrom ([], []) vrfs).1
          (buildVrfDictsFrom ([], []) vrfs).2 p =
          .skip (.warnUnknownSrcVrf v p.dest_pfx)) ∧
      (∀ nm, dget (buildVrfDictsFrom ([], []) vrfs).1 v = some nm →
        (nm == "") = false →
        truthyOpt (dget (buildVrfDictsFrom ([], []) vrfs).2 nm) = false →
        vrfStep (buildVrfDictsFrom ([], []) vrfs).1
          (buildVrfDictsFrom ([], []) vrfs).2 p =
          .skip (.warnVrfNotGlobal nm v p.dest_pfx)) ∧
      (∀ nm j, dget (buildVrfDictsFrom ([], []) vrfs).1 v = some nm →
        (nm == "") = false →
        dget (buildVrfDictsFrom ([], []) vrfs).2 nm = some j →
        (j == "") = false →
        vrfStep (buildVrfDictsFrom ([], []) vrfs).1
          (buildVrfDictsFrom ([], []) vrfs).2 p =
          .ok { p with vrf_context_id := some j } ∧ j = v)) := by
  constructor
  · intro htr
    rcases hv : p.vrf_context_id with _ | s
    · simp [vrfStep, hv]
    · simp only [truthyOpt, hv] at htr
      have hs : (s == "") = true := by simpa using htr
      simp [vrfStep, hv, hs]
  · intro hv hz
    have hzb : (v == "") = false := by simpa using hz
    refine ⟨?_, ?_, ?_⟩
    · intro htr1
      rcases hg : dget (buildVrfDictsFrom ([], []) vrfs).1 v with _ | nm
      · simp [vrfStep, hv, hzb, hg]
      · have hnm : (nm == "") = true := by
          simpa [truthyOpt, hg] using htr1
        simp [vrfStep, hv, hzb, hg, hnm]
    · intro nm h1 hnm htr2
      rcases hg2 : dget (buildVrfDictsFrom ([], []) vrfs).2 nm with _ | j
      · simp [vrfStep, hv, hzb, h1, hnm, hg2]
      · have hj : (j == "") = true := by
          simpa [truthyOpt, hg2] using htr2
        simp [vrfStep, hv, hzb, h1, hnm, hg2, hj]
    · intro nm j h1 hnm h2 hj
      constructor
      · simp [vrfStep, hv, hzb, h1, hnm, h2, hj]
      · have hrt := buildVrf_roundtrip vrfs [] [] [] (by simpa using hnames)
          (fun i n h => by simp [dget] at h)
          (fun i n h => by simp [dget] at h) v nm h1
        rw [h2] at hrt
        exact Option.some.inj hrt

/-- One VRF listing with distinct names, for the round-trip scenario. -/
def vrfs0 : List VrfRec := [⟨"v1", "CORP"⟩]

/-- A route payload referencing VRF `v1`. -/
def pr0 : RoutePayload :=
  ⟨some "rr", "corp net", "192.168.1.0/24", some "v1", none, [], []⟩

theorem claim_C7_witness :
    vrfStep (buildVrfDictsFrom ([], []) vrfs0).1
      (buildVrfDictsFrom ([], []) vrfs0).2 pr0 =
      .ok { pr0 with vrf_context_id := some "v1" } := by
  exact (((claim_C7 vrfs0 (by decide) pr0 "v1").2 rfl (by decide)).2.2
    "CORP" "v1" (by rfl) (by decide) (by rfl) (by decide)).1

/-! ## Lemmas about the translation-table builder -/

theorem intfPhase_cons (s : Session) (t : Tables) (evs : List DictEvent)
    (a1 a2 : String) (rest : List (String × String)) :
    intfPhase s (t, evs) ((a1, a2) :: rest) =
      match (dget t.elemid_siteid a1).getD none with
      | some ss =>
        if ss == "" then
          intfPhase s (t, evs ++ [DictEvent.warnNoSiteId a2 a1]) rest
        else if (s.interfaces a1 ss).cgx_status then
          intfPhase s
            ({ t with
               element_interfaces_by_id :=
                 dinsert t.element_interfaces_by_id a1
                   (buildIntfDicts
                     ((dget t.element_interfaces_by_id a1).getD [],
                      (dget t.element_interfaces_by_name a1).getD [])
                     (s.interfaces a1 ss).items).1,
               element_interfaces_by_name :=
                 dinsert t.element_interfaces_by_name a1
                   (buildIntfDicts
                     ((dget t.element_interfaces_by_id a1).getD [],
                      (dget t.element_interfaces_by_name a1).getD [])
                     (s.interfaces a1 ss).items).2 },
             evs) rest
        else intfPhase s (t, evs ++ [DictEvent.errIntfList a2 a1]) rest
      | none =>
        intfPhase s (t, evs ++ [DictEvent.warnNoSiteId a2 a1]) rest := rfl

theorem intfPhase_step_nosite (s : Session) (t : Tables)
    (evs : List DictEvent) (a1 a2 : String) (rest : List (String × String))
    (h : (dget t.elemid_siteid a1).getD none = none) :
    intfPhase s (t, evs) ((a1, a2) :: rest) =
      intfPhase s (t, evs ++ [DictEvent.warnNoSiteId a2 a1]) rest := by
  rw [intfPhase_cons, h]

theorem intfPhase_step_empty (s : Session) (t : Tables)
    (evs : List DictEvent) (a1 a2 ss : String)
    (rest : List (String × String))
    (h : (dget t.elemid_siteid a1).getD none = some ss)
    (hz : (ss == "") = true) :
    intfPhase s (t, evs) ((a1, a2) :: rest) =
      intfPhase s (t, evs ++ [DictEvent.warnNoSiteId a2 a1]) rest := by
  rw [intfPhase_cons, h]
  simp only [hz, if_true]

theorem intfPhase_step_err (s : Session) (t : Tables)
    (evs : List DictEvent) (a1 a2 ss : String)
    (rest : List (String × String))
    (h : (dget t.elemid_siteid a1).getD none = some ss)
    (hz : (ss == "") = false)
    (hst : (s.interfaces a1 ss).cgx_status = false) :
    intfPhase s (t, evs) ((a1, a2) :: rest) =
      intfPhase s (t, evs ++ [DictEvent.errIntfList a2 a1]) rest := by
  rw [intfPhase_cons, h]
  simp only [hz, hst, Bool.false_eq_true, if_false]

theorem intfPhase_step_ok (s : Session) (t : Tables)
    (evs : List DictEvent) (a1 a2 ss : String)
    (rest : List (String × String))
    (h : (dget t.elemid_siteid a1).getD none = some ss)
    (hz : (ss == "") = false)
    (hst : (s.interfaces a1 ss).cgx_status = true) :
    intfPhase s (t, evs) ((a1, a2) :: rest) =
      intfPhase s
        ({ t with
           element_interfaces_by_id :=
             dinsert t.element_interfaces_by_id a1
               (buildIntfDicts
                 ((dget t.element_interfaces_by_id a1).getD [],
                  (dget t.element_interfaces_by_name a1).getD [])
                 (s.interfaces a1 ss).items).1,
           element_interfaces_by_name :=
             dinsert t.element_interfaces_by_name a1
               (buildIntfDicts
                 ((dget t.element_interfaces_by_id a1).getD [],
                  (dget t.element_interfaces_by_name a1).getD [])
                 (s.interfaces a1 ss).items).2 },
         evs) rest := by
  rw [intfPhase_cons, h]
  simp only [hz, hst, Bool.false_eq_true, if_false, if_true]

theorem intfPhase_not_key (s : Session) (L : List (String × String)) :
    ∀ (k : String), k ∉ L.map Prod.fst → ∀ t evs,
      dget (intfPhase s (t, evs) L).1.element_interfaces_by_id k =
        dget t.element_interfaces_by_id k ∧
      dget (intfPhase s (t, evs) L).1.element_interfaces_by_name k =
        dget t.element_interfaces_by_name k := by
  induction L with
  | nil => exact fun k hk t evs => ⟨rfl, rfl⟩
  | cons a rest ih =>
    intro k hk t evs
    rcases a with ⟨a1, a2⟩
    simp only [List.map_cons, List.mem_cons, not_or] at hk
    rcases hso : (dget t.elemid_siteid a1).getD none with _ | ss
    · rw [intfPhase_step_nosite s t evs a1 a2 rest hso]
      exact ih k hk.2 t _
    · by_cases hz : (ss == "") = true
      · rw [intfPhase_step_empty s t evs a1 a2 ss rest hso hz]
        exact ih k hk.2 t _
      · have hz2 : (ss == "") = false := by simpa using hz
        by_cases hst : (s.interfaces a1 ss).cgx_status = true
        · rw [intfPhase_step_ok s t evs a1 a2 ss rest hso hz2 hst]
          refine ⟨?_, ?_⟩
          · rw [(ih k hk.2 _ evs).1]
            exact dget_dinsert_ne _ _ _ _ hk.1
          · rw [(ih k hk.2 _ evs).2]
            exact dget_dinsert_ne _ _ _ _ hk.1
        · have hst2 : (s.interfaces a1 ss).cgx_status = false := by
            simpa using hst
          rw [intfPhase_step_err s t evs a1 a2 ss rest hso hz2 hst2]
          exact ih k hk.2 t _

theorem intfPhase_fixed (s : Session) (L : List (String × String)) :
    ∀ t evs,
      (intfPhase s (t, evs) L).1.elem_name_id = t.elem_name_id ∧
      (intfPhase s (t, evs) L).1.elemid_siteid = t.elemid_siteid := by
  induction L with
  | nil => exact fun t evs => ⟨rfl, rfl⟩
  | cons a rest ih =>
    intro t evs
    rcases a with ⟨a1, a2⟩
    rcases hso : (dget t.elemid_siteid a1).getD none with _ | ss
    · rw [intfPhase_step_nosite s t evs a1 a2 rest hso]
      exact ih t _
    · by_cases hz : (ss == "") = true
      · rw [intfPhase_step_empty s t evs a1 a2 ss rest hso hz]
        exact ih t _
      · have hz2 : (ss == "") = false := by simpa using hz
        by_cases hst : (s.interfaces a1 ss).cgx_status = true
        · rw [intfPhase_step_ok s t evs a1 a2 ss rest hso hz2 hst]
          exact ih _ evs
        · have hst2 : (s.interfaces a1 ss).cgx_status = false := by
            simpa using hst
          rw [intfPhase_step_err s t evs a1 a2 ss rest hso hz2 hst2]
          exact ih t _

theorem intfPhase_isSome (s : Session) (L : List (String × String)) :
    ∀ t evs (k : String),
      (dget t.element_interfaces_by_id k).isSome →
      (dget t.element_interfaces_by_name k).isSome →
      (dget (intfPhase s (t, evs) L).1.element_interfaces_by_id k).isSome ∧
      (dget (intfPhase s (t, evs) L).1.element_interfaces_by_name k).isSome := by
  induction L with
  | nil => exact fun t evs k h1 h2 => ⟨h1, h2⟩
  | cons a rest ih =>
    intro t evs k h1 h2
    rcases a with ⟨a1, a2⟩
    rcases hso : (dget t.elemid_siteid a1).getD none with _ | ss
    · rw [intfPhase_step_nosite s t evs a1 a2 rest hso]
      exact ih t _ k h1 h2
    · by_cases hz : (ss == "") = true
      · rw [intfPhase_step_empty s t evs a1 a2 ss rest hso hz]
        exact ih t _ k h1 h2
      · have hz2 : (ss == "") = false := by simpa using hz
        by_cases hst : (s.interfaces a1 ss).cgx_status = true
        · rw [intfPhase_step_ok s t evs a1 a2 ss rest hso hz2 hst]
          exact ih _ evs k (isSome_dget_dinsert _ _ _ _ h1)
            (isSome_dget_dinsert _ _ _ _ h2)
        · have hst2 : (s.interfaces a1 ss).cgx_status = false := by
            simpa using hst
          rw [intfPhase_step_err s t evs a1 a2 ss rest hso hz2 hst2]
          exact ih t _ k h1 h2

theorem intfPhase_events_mono (s : Session) (L : List (String × String)) :
    ∀ t evs (ev : DictEvent), ev ∈ evs → ev ∈ (intfPhase s (t, evs) L).2 := by
  induction L with
  | nil => exact fun t evs ev h => h
  | cons a rest ih =>
    intro t evs ev h
    rcases a with ⟨a1, a2⟩
    rcases hso : (dget t.elemid_siteid a1).getD none with _ | ss
    · rw [intfPhase_step_nosite s t evs a1 a2 rest hso]
      exact ih t _ ev (List.mem_append_left _ h)
    · by_cases hz : (ss == "") = true
      · rw [intfPhase_step_empty s t evs a1 a2 ss rest hso hz]
        exact ih t _ ev (List.mem_append_left _ h)
      · have hz2 : (ss == "") = false := by simpa using hz
        by_cases hst : (s.interfaces a1 ss).cgx_status = true
        · rw [intfPhase_step_ok s t evs a1 a2 ss rest hso hz2 hst]
          exact ih _ evs ev h
        · have hst2 : (s.interfaces a1 ss).cgx_status = false := by
            simpa using hst
          rw [intfPhase_step_err s t evs a1 a2 ss rest hso hz2 hst2]
          exact ih t _ ev (List.mem_append_left _ h)

theorem addElems_not_key (es : List ElemRec) :
    ∀ (k : String), k ∉ es.map ElemRec.id → ∀ t,
      dget (addElems t es).elem_id_name k = dget t.elem_id_name k ∧
      dget (addElems t es).elemid_siteid k = dget t.elemid_siteid k ∧
      dget (addElems t es).element_interfaces_by_id k =
        dget t.element_interfaces_by_id k ∧
      dget (addElems t es).element_interfaces_by_name k =
        dget t.element_interfaces_by_name k := by
  induction es with
  | nil => exact fun k hk t => ⟨rfl, rfl, rfl, rfl⟩
  | cons e rest ih =>
    intro k hk t
    simp only [List.map_cons, List.mem_cons, not_or] at hk
    simp only [addElems]
    have h := ih k hk.2
    refine ⟨?_, ?_, ?_, ?_⟩
    · rw [(h _).1]
      exact dget_dinsert_ne _ _ _ _ hk.1
    · rw [(h _).2.1]
      exact dget_dinsert_ne _ _ _ _ hk.1
    · rw [(h _).2.2.1]
      exact dget_dinsert_ne _ _ _ _ hk.1
    · rw [(h _).2.2.2]
      exact dget_dinsert_ne _ _ _ _ hk.1

theorem addElems_at_mem (es : List ElemRec) :
    ∀ (e : ElemRec), e ∈ es → (es.map ElemRec.id).Nodup → ∀ t,
      dget (addElems t es).elem_id_name e.id = some e.name ∧
      dget (addElems t es).elemid_siteid e.id = some e.site_id ∧
      dget (addElems t es).element_interfaces_by_id e.id = some [] ∧
      dget (addElems t es).element_interfaces_by_name e.id = some [] := by
  induction es with
  | nil => intro e he; simp at he
  | cons a rest ih =>
    intro e he hnd t
    simp only [List.map_cons, List.nodup_cons] at hnd
    rcases List.mem_cons.mp he with he1 | he2
    · subst he1
      simp only [addElems]
      refine ⟨?_, ?_, ?_, ?_⟩
      · rw [(addElems_not_key rest e.id hnd.1 _).1]
        exact dget_dinsert_self _ _ _
      · rw [(addElems_not_key rest e.id hnd.1 _).2.1]
        exact dget_dinsert_self _ _ _
      · rw [(addElems_not_key rest e.id hnd.1 _).2.2.1]
        exact dget_dinsert_self _ _ _
      · rw [(addElems_not_key rest e.id hnd.1 _).2.2.2]
        exact dget_dinsert_self _ _ _
    · simp only [addElems]
      exact ih e he2 hnd.2 _

theorem addElems_isSome_mono (es : List ElemRec) :
    ∀ (k : String) t,
      (dget t.element_interfaces_by_id k).isSome →
      (dget t.element_interfaces_by_name k).isSome →
      (dget (addElems t es).element_interfaces_by_id k).isSome ∧
      (dget (addElems t es).element_interfaces_by_name k).isSome := by
  induction es with
  | nil => exact fun k t h1 h2 => ⟨h1, h2⟩
  | cons a rest ih =>
    intro k t h1 h2
    simp only [addElems]
    exact ih k _ (isSome_dget_dinsert _ _ _ _ h1) (isSome_dget_dinsert _ _ _ _ h2)

theorem addElems_mem_isSome (es : List ElemRec) :
    ∀ (e : ElemRec), e ∈ es → ∀ t,
      (dget (addElems t es).element_interfaces_by_id e.id).isSome ∧
      (dget (addElems t es).element_interfaces_by_name e.id).isSome := by
  induction es with
  | nil => intro e he; simp at he
  | cons a rest ih =>
    intro e he t
    rcases List.mem_cons.mp he with he1 | he2
    · subst he1
      simp only [addElems]
      exact addElems_isSome_mono rest e.id _ (by simp [dget_dinsert])
        (by simp [dget_dinsert])
    · simp only [addElems]
      exact ih e he2 _

theorem addElems_nameid (es : List ElemRec) :
    ∀ t,
      (∀ nm i, dget t.elem_name_id nm = some i →
        (dget t.element_interfaces_by_id i).isSome ∧
        (dget t.element_interfaces_by_name i).isSome) →
      ∀ nm i, dget (addElems t es).elem_name_id nm = some i →
        (dget (addElems t es).element_interfaces_by_id i).isSome ∧
        (dget (addElems t es).element_interfaces_by_name i).isSome := by
  induction es with
  | nil => exact fun t h => h
  | cons a rest ih =>
    intro t hinv
    simp only [addElems]
    apply ih
    intro nm i h
    have h2 : dget (dinsert t.elem_name_id a.name a.id) nm = some i := h
    rw [dget_dinsert] at h2
    by_cases hnm : nm = a.name
    · rw [if_pos hnm] at h2
      have hi : i = a.id := (Option.some.inj h2).symm
      subst hi
      constructor
      · simp [dget_dinsert]
      · simp [dget_dinsert]
    · rw [if_neg hnm] at h2
      constructor
      · exact isSome_dget_dinsert _ _ _ _ (hinv nm i h2).1
      · exact isSome_dget_dinsert _ _ _ _ (hinv nm i h2).2

theorem addElems_list (es : List ElemRec) :
    ∀ t, (es.map ElemRec.id).Nodup →
      (∀ e ∈ es, dget t.elem_id_name e.id = none) →
      (addElems t es).elem_id_name =
        t.elem_id_name ++ es.map (fun e => (e.id, e.name)) := by
  induction es with
  | nil => intro t _ _; simp [addElems]
  | cons a rest ih =>
    intro t hnd habs
    simp only [List.map_cons, List.nodup_cons] at hnd
    simp only [addElems]
    have hstep :
        (dinsert t.elem_id_name a.id a.name : List (String × String)) =
          t.elem_id_name ++ [(a.id, a.name)] :=
      dinsert_absent _ _ _ (habs a (List.mem_cons_self _ _))
    rw [ih _ hnd.2 ?_]
    · show dinsert t.elem_id_name a.id a.name ++ _ = _
      rw [hstep, List.append_assoc]
      simp
    · intro e he
      have hne : ¬ a.id = e.id := fun hh =>
        hnd.1 (hh ▸ List.mem_map_of_mem ElemRec.id he)
      show dget (dinsert t.elem_id_name a.id a.name) e.id = none
      rw [hstep]
      simp [dget_append, habs e (List.mem_cons_of_mem _ he), dget, hne]

theorem intfPhase_spec (s : Session) (L : List (String × String)) :
    ∀ (eid ename : String), (L.map Prod.fst).Nodup → (eid, ename) ∈ L →
    ∀ t evs (so : Option String)
      (b1 b2 : Option (List (String × String))),
      dget t.elemid_siteid eid = some so →
      dget t.element_interfaces_by_id eid = b1 →
      dget t.element_interfaces_by_name eid = b2 →
      (truthyOpt so = false →
        dget (intfPhase s (t, evs) L).1.element_interfaces_by_id eid = b1 ∧
        dget (intfPhase s (t, evs) L).1.element_interfaces_by_name eid = b2 ∧
        DictEvent.warnNoSiteId ename eid ∈ (intfPhase s (t, evs) L).2) ∧
      (∀ ss, so = some ss → (ss == "") = false →
        (s.interfaces eid ss).cgx_status = false →
        dget (intfPhase s (t, evs) L).1.element_interfaces_by_id eid = b1 ∧
        dget (intfPhase s (t, evs) L).1.element_interfaces_by_name eid = b2 ∧
        DictEvent.errIntfList ename eid ∈ (intfPhase s (t, evs) L).2) ∧
      (∀ ss, so = some ss → (ss == "") = false →
        (s.interfaces eid ss).cgx_status = true →
        dget (intfPhase s (t, evs) L).1.element_interfaces_by_id eid =
          some (buildIntfDicts (b1.getD [], b2.getD [])
            (s.interfaces eid ss).items).1 ∧
        dget (intfPhase s (t, evs) L).1.element_interfaces_by_name eid =
          some (buildIntfDicts (b1.getD [], b2.getD [])
            (s.interfaces eid ss).items).2) := by
  induction L with
  | nil =>
    intro eid ename hnd hm
    simp at hm
  | cons a rest ih =>
    intro eid ename hnd hm t evs so b1 b2 hsite hb1 hb2
    rcases a with ⟨a1, a2⟩
    simp only [List.map_cons, List.nodup_cons] at hnd
    rcases List.mem_cons.mp hm with hm1 | hm2
    · have h1 : eid = a1 := congrArg Prod.fst hm1
      have h2 : ename = a2 := congrArg Prod.snd hm1
      subst h1
      subst h2
      have hscrut : (dget t.elemid_siteid eid).getD none = so := by
        rw [hsite]
        rfl
      refine ⟨?_, ?_, ?_⟩
      · intro htr
        rcases so with _ | ss
        · rw [intfPhase_step_nosite s t evs eid ename rest hscrut]
          have hnk := intfPhase_not_key s rest eid hnd.1 t
            (evs ++ [DictEvent.warnNoSiteId ename eid])
          exact ⟨hnk.1.trans hb1, hnk.2.trans hb2,
            intfPhase_events_mono s rest t _ _ (by simp)⟩
        · have hz : (ss == "") = true := by simpa [truthyOpt] using htr
          rw [intfPhase_step_empty s t evs eid ename ss rest hscrut hz]
          have hnk := intfPhase_not_key s rest eid hnd.1 t
            (evs ++ [DictEvent.warnNoSiteId ename eid])
          exact ⟨hnk.1.trans hb1, hnk.2.trans hb2,
            intfPhase_events_mono s rest t _ _ (by simp)⟩
      · intro ss hss hz hst
        subst hss
        rw [intfPhase_step_err s t evs eid ename ss rest hscrut hz hst]
        have hnk := intfPhase_not_key s rest eid hnd.1 t
          (evs ++ [DictEvent.errIntfList ename eid])
        exact ⟨hnk.1.trans hb1, hnk.2.trans hb2,
          intfPhase_events_mono s rest t _ _ (by simp)⟩
      · intro ss hss hz hst
        subst hss
        rw [intfPhase_step_ok s t evs eid ename ss rest hscrut hz hst]
        rw [← hb1, ← hb2]
        refine ⟨?_, ?_⟩
        · rw [(intfPhase_not_key s rest eid hnd.1 _ evs).1]
          exact dget_dinsert_self _ _ _
        · rw [(intfPhase_not_key s rest eid hnd.1 _ evs).2]
          exact dget_dinsert_self _ _ _
    · have heidmem : eid ∈ rest.map Prod.fst :=
        List.mem_map_of_mem Prod.fst hm2
      have hne : ¬ a1 = eid := fun hh => hnd.1 (hh ▸ heidmem)
      have hne2 : eid ≠ a1 := fun hh => hne hh.symm
      rcases hso2 : (dget t.elemid_siteid a1).getD none with _ | ss2
      · rw [intfPhase_step_nosite s t evs a1 a2 rest hso2]
        exact ih eid ename hnd.2 hm2 t _ so b1 b2 hsite hb1 hb2
      · by_cases hz2 : (ss2 == "") = true
        · rw [intfPhase_step_empty s t evs a1 a2 ss2 rest hso2 hz2]
          exact ih eid ename hnd.2 hm2 t _ so b1 b2 hsite hb1 hb2
        · have hz2f : (ss2 == "") = false := by simpa using hz2
          by_cases hst2 : (s.interfaces a1 ss2).cgx_status = true
          · rw [intfPhase_step_ok s t evs a1 a2 ss2 rest hso2 hz2f hst2]
            refine ih eid ename hnd.2 hm2 _ evs so b1 b2 ?_ ?_ ?_
            · exact hsite
            · exact (dget_dinsert_ne t.element_interfaces_by_id a1 eid _
                hne2).trans hb1
            · exact (dget_dinsert_ne t.element_interfaces_by_name a1 eid _
                hne2).trans hb2
          · have hst2f : (s.interfaces a1 ss2).cgx_status = false := by
              simpa using hst2
            rw [intfPhase_step_err s t evs a1 a2 ss2 rest hso2 hz2f hst2f]
            exact ih eid ename hnd.2 hm2 t _ so b1 b2 hsite hb1 hb2

/-- The tables after the element and VRF phases of `create_dicts`
(lines 55-85), before the per-element interface phase. -/
def tablesAfterVrf (s : Session) : Tables :=
  { addElems emptyTables s.elements.items with
    global_id_vfr :=
      (buildVrfDictsFrom
        ((addElems emptyTables s.elements.items).global_id_vfr,
         (addElems emptyTables s.elements.items).global_name_vfr)
        s.vrfcontexts.items).1,
    global_name_vfr :=
      (buildVrfDictsFrom
        ((addElems emptyTables s.elements.items).global_id_vfr,
         (addElems emptyTables s.elements.items).global_name_vfr)
        s.vrfcontexts.items).2 }

theorem create_dicts_eq (s : Session)
    (h1 : s.elements.cgx_status = true)
    (h2 : s.vrfcontexts.cgx_status = true) :
    create_dicts s =
      some (intfPhase s (tablesAfterVrf s, [])
        (addElems emptyTables s.elements.items).elem_id_name) := by
  simp [create_dicts, tablesAfterVrf, h1, h2]

/-- C8: a failed element listing or VRF listing aborts `create_dicts`; a
failed per-element interface listing does not abort the run, emits the
retrieval-error diagnostic and leaves exactly that element's interface
dictionaries as the empty dictionaries they were initialised to; an
element whose recorded site id is falsy is skipped with a warning and
likewise keeps empty interface dictionaries; a successful listing
populates the element's dictionaries from exactly its own items. -/
theorem claim_C8 (s : Session) (t : Tables) (evs : List DictEvent)
    (e : ElemRec) :
    (s.elements.cgx_status = false → create_dicts s = none) ∧
    (s.elements.cgx_status = true → s.vrfcontexts.cgx_status = false →
      create_dicts s = none) ∧
    (s.elements.cgx_status = true → s.vrfcontexts.cgx_status = true →
      (create_dicts s).isSome) ∧
    (create_dicts s = some (t, evs) →
      (s.elements.items.map ElemRec.id).Nodup → e ∈ s.elements.items →
      (truthyOpt e.site_id = false →
        dget t.element_interfaces_by_id e.id = some [] ∧
        dget t.element_interfaces_by_name e.id = some [] ∧
        DictEvent.warnNoSiteId e.name e.id ∈ evs) ∧
      (∀ ss, e.site_id = some ss → (ss == "") = false →
        (s.interfaces e.id ss).cgx_status = false →
        dget t.element_interfaces_by_id e.id = some [] ∧
        dget t.element_interfaces_by_name e.id = some [] ∧
        DictEvent.errIntfList e.name e.id ∈ evs) ∧
      (∀ ss, e.site_id = some ss → (ss == "") = false →
        (s.interfaces e.id ss).cgx_status = true →
        dget t.element_interfaces_by_id e.id =
          some (buildIntfDicts ([], []) (s.interfaces e.id ss).items).1 ∧
        dget t.element_interfaces_by_name e.id =
          some (buildIntfDicts ([], []) (s.interfaces e.id ss).items).2)) := by
  refine ⟨?_, ?_, ?_, ?_⟩
  · intro h1
    simp [create_dicts, h1]
  · intro h1 h2
    simp [create_dicts, h1, h2]
  · intro h1 h2
    rw [create_dicts_eq s h1 h2]
    rfl
  · intro hcd hnd hmem
    cases hb1 : s.elements.cgx_status with
    | false => simp [create_dicts, hb1] at hcd
    | true =>
      cases hb2 : s.vrfcontexts.cgx_status with
      | false => simp [create_dicts, hb1, hb2] at hcd
      | true =>
        rw [create_dicts_eq s hb1 hb2] at hcd
        have heq := Option.some.inj hcd
        have hmm := addElems_at_mem s.elements.items e hmem hnd emptyTables
        have hL : (addElems emptyTables s.elements.items).elem_id_name =
            s.elements.items.map (fun e2 => (e2.id, e2.name)) := by
          simpa using addElems_list s.elements.items emptyTables hnd
            (fun e2 he2 => rfl)
        have hknd :
            ((addElems emptyTables s.elements.items).elem_id_name.map
              Prod.fst).Nodup := by
          rw [hL]
          simpa [List.map_map, Function.comp] using hnd
        have hkm : (e.id, e.name) ∈
            (addElems emptyTables s.elements.items).elem_id_name := by
          rw [hL]
          exact List.mem_map_of_mem _ hmem
        have hspec := intfPhase_spec s
          (addElems emptyTables s.elements.items).elem_id_name
          e.id e.name hknd hkm (tablesAfterVrf s) [] e.site_id
          (some []) (some []) hmm.2.1 hmm.2.2.1 hmm.2.2.2
        rw [heq] at hspec
        refine ⟨?_, ?_, ?_⟩
        · intro htr
          exact hspec.1 htr
        · intro ss hss hz hst
          exact hspec.2.1 ss hss hz hst
        · intro ss hss hz hst
          exact hspec.2.2 ss hss hz hst

/-- C10: after a successful `create_dicts`, the per-element interface
dictionaries have an entry (possibly the empty dictionary) for every
element id of the listing, and for every id reachable through the
validated `elem_name_id` lookup -- so the direct indexing
`element_interfaces_by_id[src_eid]` / `element_interfaces_by_name[dst_eid]`
performed during nexthop rewriting can never hit a missing device key,
and a device whose interface tables stayed empty simply sends such a
route down the unresolved-lookup path. -/
theorem claim_C10 (s : Session) (t : Tables) (evs : List DictEvent)
    (h : create_dicts s = some (t, evs)) :
    (∀ e ∈ s.elements.items,
      (dget t.element_interfaces_by_id e.id).isSome ∧
      (dget t.element_interfaces_by_name e.id).isSome) ∧
    (∀ nm eid, dget t.elem_name_id nm = some eid →
      (dget t.element_interfaces_by_id eid).isSome ∧
      (dget t.element_interfaces_by_name eid).isSome) := by
  cases hb1 : s.elements.cgx_status with
  | false => simp [create_dicts, hb1] at h
  | true =>
    cases hb2 : s.vrfcontexts.cgx_status with
    | false => simp [create_dicts, hb1, hb2] at h
    | true =>
      rw [create_dicts_eq s hb1 hb2] at h
      have heq := Option.some.inj h
      constructor
      · intro e he
        have h0 := addElems_mem_isSome s.elements.items e he emptyTables
        have h1 := intfPhase_isSome s
          (addElems emptyTables s.elements.items).elem_id_name
          (tablesAfterVrf s) [] e.id h0.1 h0.2
        rw [heq] at h1
        exact h1
      · intro nm eid hname
        have hfix := (intfPhase_fixed s
          (addElems emptyTables s.elements.items).elem_id_name
          (tablesAfterVrf s) []).1
        rw [heq] at hfix
        have hfix2 : t.elem_name_id =
            (addElems emptyTables s.elements.items).elem_name_id := hfix
        have hname0 :
            dget (addElems emptyTables s.elements.items).elem_name_id nm =
              some eid := by
          rw [← hfix2]
          exact hname
        have h0 := addElems_nameid s.elements.items emptyTables
          (fun nm2 i2 hh => by simp [dget] at hh) nm eid hname0
        have h1 := intfPhase_isSome s
          (addElems emptyTables s.elements.items).elem_id_name
          (tablesAfterVrf s) [] eid h0.1 h0.2
        rw [heq] at h1
        exact h1

/-- One element whose interface listing will fail. -/
def elemE1 : ElemRec := ⟨"E1", "ion1", some "S1", "ion3k"⟩

/-- A session whose element listing fails. -/
def sNoElem : Session :=
  { elements := ⟨false, []⟩,
    vrfcontexts := ⟨true, []⟩,
    interfaces := fun _ _ => ⟨true, []⟩ }

/-- A session whose VRF listing fails. -/
def sNoVrf : Session :=
  { elements := ⟨true, [elemE1]⟩,
    vrfcontexts := ⟨false, []⟩,
    interfaces := fun _ _ => ⟨true, []⟩ }

/-- A session where the one element's interface listing fails. -/
def sDemo : Session :=
  { elements := ⟨true, [elemE1]⟩,
    vrfcontexts := ⟨true, []⟩,
    interfaces := fun _ _ => ⟨false, []⟩ }

/-- The tables produced by `create_dicts` on the demo session. -/
def TDemo : Tables := ((create_dicts sDemo).getD (emptyTables, [])).1

/-- The diagnostics produced by `create_dicts` on the demo session. -/
def EDemo : List DictEvent := ((create_dicts sDemo).getD (emptyTables, [])).2

theorem claim_C8_witness :
    create_dicts sNoElem = none ∧
    create_dicts sNoVrf = none ∧
    (create_dicts sDemo).isSome ∧
    (dget TDemo.element_interfaces_by_id "E1" = some [] ∧
     dget TDemo.element_interfaces_by_name "E1" = some [] ∧
     DictEvent.errIntfList "ion1" "E1" ∈ EDemo) := by
  refine ⟨?_, ?_, ?_, ?_⟩
  · exact (claim_C8 sNoElem emptyTables [] elemE1).1 rfl
  · exact (claim_C8 sNoVrf emptyTables [] elemE1).2.1 rfl rfl
  · exact (claim_C8 sDemo emptyTables [] elemE1).2.2.1 rfl rfl
  · exact ((claim_C8 sDemo TDemo EDemo elemE1).2.2.2 (by rfl) (by decide)
      (by decide)).2.1 "S1" rfl (by decide) rfl

theorem claim_C10_witness :
    (dget TDemo.element_interfaces_by_id "E1").isSome ∧
    (dget TDemo.element_interfaces_by_name "E1").isSome := by
  exact (claim_C10 sDemo TDemo EDemo (by rfl)).1 elemE1 (by decide)

end Copylan
